import Mathlib

/-!
Verification of the edge request-authentication engine of the
cloudfront-lambda-edge-lab repository.

The development shallowly embeds the validation logic of the three edge
functions:

- the signed-timestamp (HMAC) scheme of src/lambda-edge/index.js (the
  CloudFront-function variant src/cloudfront-function/bot-validator.js has
  byte-for-byte identical validation logic, differing only in the response
  record shape);
- the encrypted-envelope (AES-256-GCM) scheme of the aesgcm Lambda@Edge
  handler (decryptToken, validatePayload, handler);
- the TTL-cached Secrets Manager secret provider (getSecret).

Modelling conventions:

- JavaScript strings are modelled as Lean strings; charCodeAt is modelled by
  Char.toNat (the validators only ever compare code units for equality, for
  which the two encodings agree).
- JavaScript numbers are modelled as Int where the source only ever produces
  integers (Unix timestamps, tolerances, TTLs).
- The HMAC-SHA256 hex digest and the AES-GCM decrypt + UTF-8 decode +
  JSON.parse pipeline are abstracted as function parameters of the
  embeddings; every theorem quantifies over them, so nothing proved depends
  on the internals of the primitives.
- Asynchronous secret retrieval is modelled by passing the resolved outcome
  of getSecret (an Except value) to the handler, mirroring the await at the
  top of each source handler.
- A deny response {status, statusDescription, Content-Type json, body
  JSON.stringify of a single error field} is modelled by the EdgeResult
  response constructor carrying the status, the status description and the
  error message of the body.
-/

namespace EdgeLab

/-- JavaScript values as produced by JSON.parse, with numbers restricted to
integers (the engine only ever handles integer timestamps). -/
inductive JSValue where
  | null
  | bool (b : Bool)
  | num (n : Int)
  | str (s : String)
  | arr (items : List JSValue)
  | obj (fields : List (String × JSValue))

/-- JavaScript truthiness of a JSValue: null, false, 0 and the empty string
are falsy; every array and object is truthy. -/
def JSValue.truthy : JSValue → Bool
  | .null => false
  | .bool b => b
  | .num n => !(decide (n = 0))
  | .str s => !s.data.isEmpty
  | .arr _ => true
  | .obj _ => true

/-- Whether the JavaScript typeof operator yields the string object: true for
objects, arrays and null. -/
def JSValue.typeofObject : JSValue → Bool
  | .null => true
  | .arr _ => true
  | .obj _ => true
  | _ => false

/-- First-match field lookup in a JSON object (JSON.parse collapses duplicate
keys, so the field lists we consider are duplicate-free). -/
def lookupField : List (String × JSValue) → String → Option JSValue
  | [], _ => none
  | (k, v) :: rest, name => if k = name then some v else lookupField rest name

/-- JavaScript property access payload.name: a field of an object, undefined
(none) on every other value. -/
def JSValue.getField : JSValue → String → Option JSValue
  | .obj fields, name => lookupField fields name
  | _, _ => none

/-- Hex digit value of a character, none for a non-hex character. -/
def hexVal (c : Char) : Option Nat :=
  if '0' ≤ c ∧ c ≤ '9' then some (c.toNat - 48)
  else if 'a' ≤ c ∧ c ≤ 'f' then some (c.toNat - 87)
  else if 'A' ≤ c ∧ c ≤ 'F' then some (c.toNat - 55)
  else none

/-- Node Buffer.from(s, hex): decode two hex characters at a time from the
left; stop (truncating) at the first pair containing a non-hex character, and
drop a trailing unpaired character. -/
def hexPairs : List Char → List Nat
  | c1 :: c2 :: rest =>
    match hexVal c1, hexVal c2 with
    | some h, some l => (16 * h + l) :: hexPairs rest
    | _, _ => []
  | _ => []

/-- Buffer.from of a hex string, as the list of decoded byte values. -/
def bufferFromHex (cs : List Char) : List Nat := hexPairs cs

/-- JavaScript String.prototype.split with separator colon: splits the
character list at every colon, keeping empty fields. -/
def splitOnColon : List Char → List (List Char)
  | [] => [[]]
  | c :: rest =>
    if c = ':' then [] :: splitOnColon rest
    else
      match splitOnColon rest with
      | [] => [[c]]
      | g :: gs => (c :: g) :: gs

/-- Whitespace skipped by JavaScript parseInt (the engine only ever receives
header values, where these four cover the relevant cases). -/
def jsWhitespace (c : Char) : Bool :=
  c = ' ' || c = '\t' || c = '\n' || c = '\r'

/-- Decimal value of a digit list. -/
def digitsVal (ds : List Char) : Nat :=
  ds.foldl (fun a c => 10 * a + (c.toNat - 48)) 0

/-- Longest run of decimal digits at the front, none when it is empty. -/
def leadingDigits (cs : List Char) : Option Nat :=
  let ds := cs.takeWhile Char.isDigit
  if ds.isEmpty then none else some (digitsVal ds)

/-- JavaScript parseInt(s, 10): skip leading whitespace, read an optional
sign, then the longest digit prefix; NaN (none) when no digit follows, and
any trailing garbage is ignored. -/
def jsParseInt (s : String) : Option Int :=
  match s.data.dropWhile jsWhitespace with
  | '-' :: rest => (leadingDigits rest).map (fun n => -(n : Int))
  | '+' :: rest => (leadingDigits rest).map (fun n => (n : Int))
  | cs => (leadingDigits cs).map (fun n => (n : Int))

/-- TIMESTAMP_TOLERANCE, 300 seconds, identical constant in all three edge
functions. -/
def TIMESTAMP_TOLERANCE : Int := 300

/-- The replay-guard deny condition shared verbatim by both schemes:
Math.abs(currentTimestamp - timestamp) > TIMESTAMP_TOLERANCE. -/
def replayExpired (now ts : Int) : Bool :=
  decide (|now - ts| > TIMESTAMP_TOLERANCE)

/-- Accumulator of the constant-time compare loop:
for i in range, result |= a.charCodeAt(i) XOR b.charCodeAt(i). -/
def ctcAcc (a b : List Nat) : Nat :=
  (a.zip b).foldl (fun r p => r ||| (p.1 ^^^ p.2)) 0

/-- constantTimeCompare of both scheme-1 validators: false on a length
mismatch, otherwise OR-accumulate the XOR of every character pair and test
the accumulator against zero. -/
def constantTimeCompare (a b : String) : Bool :=
  if a.length ≠ b.length then false
  else ctcAcc (a.data.map Char.toNat) (b.data.map Char.toNat) == 0

/-- A viewer request: its headers (lowercase name to first value, as read and
written by the handlers) plus the remaining request fields, which the engine
never touches, collapsed into one opaque component. -/
structure Request where
  headers : List (String × String)
  rest : String
deriving DecidableEq

/-- JavaScript object-key assignment request.headers[name] = value: replace
the value in place when the name is present, append otherwise. -/
def setHeader : List (String × String) → String → String → List (String × String)
  | [], name, value => [(name, value)]
  | (k, v) :: hs, name, value =>
    if k = name then (name, value) :: hs
    else (k, v) :: setHeader hs name value

/-- Result of one handler invocation: pass the (possibly annotated) request
through, or answer with an HTTP response carrying a status, a status
description and the error message of its JSON body. -/
inductive EdgeResult where
  | allow (request : Request)
  | response (status : Nat) (statusDescription : String) (errorMessage : String)
deriving DecidableEq

/-- JavaScript truthiness of an absent-or-string header value: null and the
empty string are falsy. -/
def headerFalsy : Option String → Bool
  | none => true
  | some s => s.data.isEmpty

def configErrorMsg : String := "Configuration error"

def missingHeadersMsg : String :=
  "Missing required headers: X-Bot-Token and X-Bot-Signature"

def staleMsg : String := "Token expired or invalid timestamp"

def invalidSignatureMsg : String := "Invalid signature"

def missingHeaderMsgAes : String := "Missing required header: X-Auth-Token"

def invalidTokenMsg : String := "Invalid or corrupted token"

def invalidPayloadMsg : String := "Invalid payload structure"

def missingTsMsg : String := "Missing or invalid timestamp"

/-- CACHE_TTL of getSecret: 5 * 60 * 1000 milliseconds. -/
def CACHE_TTL : Int := 5 * 60 * 1000

/-- The module-level secret cache of a Lambda@Edge instance: cachedSecret
(initially null) and cacheExpiry (initially 0, in milliseconds). -/
structure SecretCache where
  cachedSecret : Option String
  cacheExpiry : Int
deriving DecidableEq

deriving instance DecidableEq for Except

/-- Outcome of one getSecret call: the returned-or-thrown value, the cache
state left behind, and whether a remote fetch (secretsClient.send) was
performed during the call. -/
structure GetSecretResult where
  result : Except String String
  state : SecretCache
  fetched : Bool
deriving DecidableEq

/-- The fetch arm of getSecret: one secretsClient.send followed by JSON.parse
of the SecretString and extraction of the scheme field, abstracted as the
already-resolved fetch argument. On success the secret is stored with expiry
now + CACHE_TTL and returned; any throw is rethrown and leaves cachedSecret
and cacheExpiry untouched. -/
def getSecretFetch (st : SecretCache) (now : Int) (fetch : Except String String) :
    GetSecretResult :=
  match fetch with
  | .ok s => ⟨.ok s, ⟨some s, now + CACHE_TTL⟩, true⟩
  | .error e => ⟨.error e, st, true⟩

/-- getSecret of both Lambda@Edge handlers: if cachedSecret is truthy and
now < cacheExpiry, return the cached value without I/O; otherwise perform the
fetch arm. -/
def getSecret (st : SecretCache) (now : Int) (fetch : Except String String) :
    GetSecretResult :=
  match st.cachedSecret with
  | some s =>
    if !s.data.isEmpty && decide (now < st.cacheExpiry) then ⟨.ok s, st, false⟩
    else getSecretFetch st now fetch
  | none => getSecretFetch st now fetch

namespace Hmac

/-- The signed-timestamp handler of src/lambda-edge/index.js (the CloudFront
function variant is logically identical). hmacHex abstracts
crypto.createHmac(sha256, secretKey).update(token).digest(hex);
secretResult is the resolved outcome of await getSecret(); now is
Math.floor(Date.now() / 1000). The two header reads take the first value of
the named header, and the falsy test of the source (null or empty string)
is split over the option match and the isEmpty test. -/
def handler (hmacHex : String → String → String) (secretResult : Except String String)
    (now : Int) (request : Request) : EdgeResult :=
  match secretResult with
  | .error _ => .response 500 "Internal Server Error" configErrorMsg
  | .ok secretKey =>
    match request.headers.lookup "x-bot-token", request.headers.lookup "x-bot-signature" with
    | some token, some signature =>
      if token.data.isEmpty || signature.data.isEmpty then
        .response 403 "Forbidden" missingHeadersMsg
      else
        match jsParseInt token with
        | none => .response 403 "Forbidden" staleMsg
        | some tokenTimestamp =>
          if replayExpired now tokenTimestamp then
            .response 403 "Forbidden" staleMsg
          else if !constantTimeCompare signature (hmacHex secretKey token) then
            .response 403 "Forbidden" invalidSignatureMsg
          else
            .allow request
    | _, _ => .response 403 "Forbidden" missingHeadersMsg

end Hmac

namespace AesGcm

/-- Oracle type abstracting the AES-256-GCM decrypt, UTF-8 decode and
JSON.parse pipeline of decryptToken: key, nonce, ciphertext and auth tag to
the parsed payload, none when decryption or parsing throws. -/
def DecOracle : Type :=
  List Nat → List Nat → List Nat → List Nat → Option JSValue

/-- decryptToken of the aesgcm handler: split the token on colons, require
exactly three fields, hex-decode each plus the key, require a 12-byte nonce,
a 16-byte auth tag and a 32-byte key, then run the decryption pipeline. The
try/catch of the source returns null for every failure. -/
def decryptToken (dec : DecOracle) (token : String) (keyHex : String) : Option JSValue :=
  match splitOnColon token.data with
  | [nonceHex, ciphertextHex, authTagHex] =>
    let nonce := bufferFromHex nonceHex
    let ciphertext := bufferFromHex ciphertextHex
    let authTag := bufferFromHex authTagHex
    let key := bufferFromHex keyHex.data
    if nonce.length ≠ 12 then none
    else if authTag.length ≠ 16 then none
    else if key.length ≠ 32 then none
    else dec key nonce ciphertext authTag
  | _ => none

/-- Result record of validatePayload: valid true, or valid false with an
error message. -/
inductive ValidationResult where
  | ok
  | fail (error : String)
deriving DecidableEq

/-- validatePayload of the aesgcm handler: reject falsy or
non-typeof-object payloads, then require a numeric ts field, then apply the
replay window to it. -/
def validatePayload (payload : JSValue) (now : Int) : ValidationResult :=
  if !payload.truthy || !payload.typeofObject then .fail invalidPayloadMsg
  else
    match payload.getField "ts" with
    | some (JSValue.num ts) =>
      if replayExpired now ts then .fail staleMsg else .ok
    | _ => .fail missingTsMsg

/-- JavaScript string conversion, used to render a validated header value.
The source stores payload.device uncoerced; the deployed clients always send
a string device, and the array case (whose JavaScript conversion joins the
elements) is approximated by the empty string, which no claim touches. -/
def jsValueToHeaderString : JSValue → String
  | .str s => s
  | .num n => toString n
  | .bool true => "true"
  | .bool false => "false"
  | .null => "null"
  | .arr _ => ""
  | .obj _ => "[object Object]"

/-- Value of the x-validated-device header: payload.device when truthy,
otherwise the string unknown (the source || default). -/
def deviceHeaderValue (payload : JSValue) : String :=
  match payload.getField "device" with
  | some d => if d.truthy then jsValueToHeaderString d else "unknown"
  | none => "unknown"

/-- Value of the x-validated-timestamp header, String(payload.ts); the
fallback for an absent ts is the JavaScript rendering undefined, unreachable
after validation. -/
def tsHeaderValue (payload : JSValue) : String :=
  match payload.getField "ts" with
  | some (JSValue.num ts) => toString ts
  | some v => jsValueToHeaderString v
  | none => "undefined"

/-- The encrypted-envelope handler of the aesgcm Lambda@Edge function. dec
abstracts the decryption pipeline, secretResult the resolved await
getSecret(), now is Math.floor(Date.now() / 1000). On success the handler
assigns the two x-validated headers into the request and forwards it. -/
def handler (dec : DecOracle) (secretResult : Except String String)
    (now : Int) (request : Request) : EdgeResult :=
  match secretResult with
  | .error _ => .response 500 "Internal Server Error" configErrorMsg
  | .ok aesKey =>
    match request.headers.lookup "x-auth-token" with
    | some authToken =>
      if authToken.data.isEmpty then .response 403 "Forbidden" missingHeaderMsgAes
      else
        match decryptToken dec authToken aesKey with
        | none => .response 403 "Forbidden" invalidTokenMsg
        | some payload =>
          if !payload.truthy then .response 403 "Forbidden" invalidTokenMsg
          else
            match validatePayload payload now with
            | .fail msg => .response 403 "Forbidden" msg
            | .ok =>
              .allow { request with
                headers :=
                  setHeader
                    (setHeader request.headers "x-validated-device" (deviceHeaderValue payload))
                    "x-validated-timestamp" (tsHeaderValue payload) }
    | none => .response 403 "Forbidden" missingHeaderMsgAes

end AesGcm

/-- Concrete decryption oracle used by concrete evaluations: ignores its
inputs and yields a fixed valid payload. -/
def decOracle : AesGcm.DecOracle :=
  fun _ _ _ _ => some (JSValue.obj [("ts", JSValue.num 100), ("device", JSValue.str "d1")])

/-- Concrete stand-in for the HMAC hex digest in concrete evaluations. -/
def hmacConst : String → String → String := fun _ _ => "aa"

/-- A 64-hex-character key string decoding to 32 bytes. -/
def key64 : String := "0123456789abcdef0123456789abcdef0123456789abcdef0123456789abcdef"

/-- A well-formed envelope with a 24-hex nonce, empty ciphertext and 32-hex
auth tag. -/
def tokenEmptyCt : String := "000000000000000000000000::00000000000000000000000000000000"

theorem or_eq_zero_iff (m n : Nat) : m ||| n = 0 ↔ m = 0 ∧ n = 0 := by
  constructor
  · intro h
    constructor
    · apply Nat.eq_of_testBit_eq
      intro i
      have hb := congrArg (fun x => Nat.testBit x i) h
      simp only [Nat.testBit_or, Nat.zero_testBit, Bool.or_eq_false_iff] at hb
      simp [hb.1]
    · apply Nat.eq_of_testBit_eq
      intro i
      have hb := congrArg (fun x => Nat.testBit x i) h
      simp only [Nat.testBit_or, Nat.zero_testBit, Bool.or_eq_false_iff] at hb
      simp [hb.2]
  · rintro ⟨rfl, rfl⟩
    rfl

theorem char_toNat_injective {c d : Char} (h : c.toNat = d.toNat) : c = d := by
  simp only [Char.toNat, UInt32.toNat] at h
  exact Char.eq_of_val_eq (UInt32.eq_of_toBitVec_eq (BitVec.eq_of_toNat_eq h))

theorem foldl_or_eq_zero (l : List (Nat × Nat)) (acc : Nat) :
    l.foldl (fun r p => r ||| (p.1 ^^^ p.2)) acc = 0 ↔
      acc = 0 ∧ ∀ p ∈ l, p.1 ^^^ p.2 = 0 := by
  induction l generalizing acc with
  | nil => simp
  | cons q l ih =>
    simp only [List.foldl_cons, ih, or_eq_zero_iff, List.mem_cons]
    constructor
    · rintro ⟨⟨h1, h2⟩, h3⟩
      refine ⟨h1, ?_⟩
      rintro p (rfl | hp)
      · exact h2
      · exact h3 p hp
    · rintro ⟨h1, h2⟩
      exact ⟨⟨h1, h2 q (Or.inl rfl)⟩, fun p hp => h2 p (Or.inr hp)⟩

theorem mem_zip_self {α : Type} (l : List α) (p : α × α) (h : p ∈ l.zip l) :
    p.1 = p.2 := by
  induction l with
  | nil => simp [List.zip] at h
  | cons x xs ih =>
    rw [List.zip_cons_cons] at h
    rcases List.mem_cons.mp h with rfl | h
    · rfl
    · exact ih h

theorem chars_eq_of_zip_xor_zero :
    ∀ (a b : List Char), a.length = b.length →
      (∀ p ∈ (a.map Char.toNat).zip (b.map Char.toNat), p.1 ^^^ p.2 = 0) → a = b := by
  intro a
  induction a with
  | nil =>
    intro b hlen _
    cases b with
    | nil => rfl
    | cons d bs => simp at hlen
  | cons c a ih =>
    intro b hlen hp
    cases b with
    | nil => simp at hlen
    | cons d bs =>
      simp only [List.length_cons, Nat.add_right_cancel_iff] at hlen
      simp only [List.map_cons, List.zip_cons_cons, List.mem_cons] at hp
      have h1 : c.toNat ^^^ d.toNat = 0 := hp _ (Or.inl rfl)
      have hc : c = d := char_toNat_injective (Nat.xor_eq_zero.mp h1)
      have h2 : a = bs := ih bs hlen (fun p hq => hp p (Or.inr hq))
      rw [hc, h2]

theorem constantTimeCompare_iff (a b : String) :
    constantTimeCompare a b = true ↔ a = b := by
  unfold constantTimeCompare
  by_cases hlen : a.length = b.length
  · simp only [hlen, ne_eq, not_true_eq_false, if_false, beq_iff_eq, ctcAcc,
      foldl_or_eq_zero]
    constructor
    · rintro ⟨-, hp⟩
      have hdata : a.data = b.data :=
        chars_eq_of_zip_xor_zero a.data b.data hlen hp
      exact String.ext hdata
    · rintro rfl
      refine ⟨by simp, ?_⟩
      intro p hp
      rw [mem_zip_self _ _ hp, Nat.xor_self]
  · have hne : a ≠ b := fun he => hlen (he ▸ rfl)
    simp [hlen, hne]

/-- C4: constantTimeCompare is a decision procedure for string equality (a
length mismatch is rejected up front, and the OR-accumulated XOR loop is zero
exactly on equal strings), so scheme-1 HMAC verification succeeds exactly
when the supplied signature string equals the hex digest recomputed from the
token under the shared secret, and any change to the signature causes
denial. -/
theorem C4_constant_time_compare :
    (∀ a b : String, constantTimeCompare a b = true ↔ a = b) ∧
    (∀ (hmacHex : String → String → String) (secret token signature : String),
      constantTimeCompare signature (hmacHex secret token) = true ↔
        signature = hmacHex secret token) :=
  ⟨constantTimeCompare_iff,
   fun hmacHex secret token signature =>
     constantTimeCompare_iff signature (hmacHex secret token)⟩

/-- C3: with the default tolerance of 300 seconds, the replay guard accepts
exactly when the absolute distance between now and the timestamp is at most
300; both boundaries are inclusive and symmetric (a distance of 300 accepts
in either direction, 301 denies), and the same check decides the
payload-level window of the encrypted-envelope scheme (the signed-timestamp
handler invokes replayExpired on the parsed token verbatim). -/
theorem C3_replay_window :
    TIMESTAMP_TOLERANCE = 300 ∧
    (∀ now t : Int, replayExpired now t = false ↔ |now - t| ≤ 300) ∧
    replayExpired 1000 700 = false ∧ replayExpired 1001 700 = true ∧
    replayExpired 700 1000 = false ∧ replayExpired 699 1000 = true ∧
    (∀ now t : Int,
      AesGcm.validatePayload (JSValue.obj [("ts", JSValue.num t)]) now =
        (if replayExpired now t then AesGcm.ValidationResult.fail staleMsg
         else AesGcm.ValidationResult.ok)) := by
  refine ⟨rfl, ?_, by decide, by decide, by decide, by decide, ?_⟩
  · intro now t
    simp [replayExpired, TIMESTAMP_TOLERANCE, not_lt]
  · intro now t
    simp [AesGcm.validatePayload, JSValue.truthy, JSValue.typeofObject,
      JSValue.getField, lookupField]

/-- C9: in both handlers the secret fetch is awaited before any header is
inspected, so a provider failure yields the 500 configuration-error response
for every request, including one with no authentication headers at all; the
same headerless request is denied 403 missing-headers when the provider
succeeds. -/
theorem C9_provider_failure_overrides (e : String) (now : Int) (req : Request)
    (hmacHex : String → String → String) (dec : AesGcm.DecOracle) (k r : String) :
    Hmac.handler hmacHex (Except.error e) now req =
      EdgeResult.response 500 "Internal Server Error" configErrorMsg ∧
    AesGcm.handler dec (Except.error e) now req =
      EdgeResult.response 500 "Internal Server Error" configErrorMsg ∧
    Hmac.handler hmacHex (Except.ok k) now ⟨[], r⟩ =
      EdgeResult.response 403 "Forbidden" missingHeadersMsg ∧
    AesGcm.handler dec (Except.ok k) now ⟨[], r⟩ =
      EdgeResult.response 403 "Forbidden" missingHeaderMsgAes :=
  ⟨rfl, rfl, rfl, rfl⟩

/-- C6 counterexample: a cached empty-string secret with an unexpired expiry
is cached in the sense of the claim (cachedSecret is non-null and now is
before cacheExpiry), yet the call performs a remote fetch and returns the
fetched value instead of the cached one, because the source tests JavaScript
truthiness of cachedSecret rather than its presence. -/
theorem C6_counterexample :
    (⟨some "", 100⟩ : SecretCache).cachedSecret.isSome = true ∧
    ((0 : Int) < (⟨some "", 100⟩ : SecretCache).cacheExpiry) ∧
    (getSecret ⟨some "", 100⟩ 0 (Except.ok "k")).fetched = true ∧
    (getSecret ⟨some "", 100⟩ 0 (Except.ok "k")).result = Except.ok "k" :=
  ⟨rfl, by decide, rfl, rfl⟩

/-- C6 amended: if a NON-EMPTY secret is cached and now is before the expiry,
it is returned with no fetch; otherwise (empty cache, cached empty string, or
expired entry) exactly one fetch is performed: on success the fetched secret
is stored with expiry now plus the five-minute TTL and returned, and on
failure the error propagates with both cache fields unchanged, so a failure
is never cached. -/
theorem C6_amended (st : SecretCache) (now : Int) (fetch : Except String String) :
    (∀ s, st.cachedSecret = some s → s ≠ "" → now < st.cacheExpiry →
      getSecret st now fetch = ⟨Except.ok s, st, false⟩) ∧
    ((st.cachedSecret = none ∨ st.cachedSecret = some "" ∨ ¬ now < st.cacheExpiry) →
      (∀ s, fetch = Except.ok s →
        getSecret st now fetch = ⟨Except.ok s, ⟨some s, now + CACHE_TTL⟩, true⟩) ∧
      (∀ e, fetch = Except.error e →
        getSecret st now fetch = ⟨Except.error e, st, true⟩)) := by
  obtain ⟨cs, ce⟩ := st
  constructor
  · intro s hs hne hlt
    simp only at hs
    subst hs
    have hdata : s.data ≠ [] := fun h => hne (String.ext h)
    unfold getSecret
    simp only at hlt
    simp [hdata, hlt]
  · intro hmiss
    simp only at hmiss
    cases cs with
    | none =>
      constructor
      · intro s hf
        subst hf
        rfl
      · intro e hf
        subst hf
        rfl
    | some t =>
      have hcond : (!t.data.isEmpty && decide (now < ce)) = false := by
        rcases hmiss with h | h | h
        · cases h
        · injection h with h
          subst h
          simp
        · simp [h]
      constructor
      · intro s hf
        subst hf
        unfold getSecret getSecretFetch
        simp [hcond]
      · intro e hf
        subst hf
        unfold getSecret getSecretFetch
        simp [hcond]

/-- C6 amended witness: a fresh non-empty cache entry is served without a
fetch; an empty cache fetches and stores on success; a failed fetch
propagates the error and leaves the cache unchanged. -/
theorem C6_amended_witness :
    getSecret ⟨some "k", 10⟩ 5 (Except.ok "x") = ⟨Except.ok "k", ⟨some "k", 10⟩, false⟩ ∧
    getSecret ⟨none, 0⟩ 7 (Except.ok "s") = ⟨Except.ok "s", ⟨some "s", 7 + CACHE_TTL⟩, true⟩ ∧
    getSecret ⟨none, 0⟩ 7 (Except.error "boom") = ⟨Except.error "boom", ⟨none, 0⟩, true⟩ :=
  ⟨(C6_amended ⟨some "k", 10⟩ 5 (Except.ok "x")).1 "k" rfl (by decide) (by decide),
   ((C6_amended ⟨none, 0⟩ 7 (Except.ok "s")).2 (Or.inl rfl)).1 "s" rfl,
   ((C6_amended ⟨none, 0⟩ 7 (Except.error "boom")).2 (Or.inl rfl)).2 "boom" rfl⟩

/-- C5: envelope decoding hands the fields to the decryption pipeline only
when the token splits on colons into exactly three fields whose hex-decoded
nonce has 12 bytes and whose hex-decoded tag has 16 bytes (the ciphertext
field is unconstrained, and may be empty); under any other field count or
wrong nonce or tag length, the result is none for EVERY decryption oracle, so
no decryption is attempted. -/
theorem C5_envelope_decode (dec : AesGcm.DecOracle) (keyHex token : String)
    (nh ch th : List Char) :
    ((splitOnColon token.data).length ≠ 3 →
      AesGcm.decryptToken dec token keyHex = none) ∧
    (splitOnColon token.data = [nh, ch, th] →
      ((bufferFromHex nh).length ≠ 12 → AesGcm.decryptToken dec token keyHex = none) ∧
      ((bufferFromHex nh).length = 12 → (bufferFromHex th).length ≠ 16 →
        AesGcm.decryptToken dec token keyHex = none) ∧
      ((bufferFromHex nh).length = 12 → (bufferFromHex th).length = 16 →
        (bufferFromHex keyHex.data).length = 32 →
        AesGcm.decryptToken dec token keyHex =
          dec (bufferFromHex keyHex.data) (bufferFromHex nh) (bufferFromHex ch)
            (bufferFromHex th))) := by
  constructor
  · intro hlen
    unfold AesGcm.decryptToken
    split
    · rename_i heq
      exact absurd (by rw [heq]; rfl) hlen
    · rfl
  · intro hsplit
    refine ⟨?_, ?_, ?_⟩
    · intro h12
      unfold AesGcm.decryptToken
      rw [hsplit]
      simp [h12]
    · intro h12 h16
      unfold AesGcm.decryptToken
      rw [hsplit]
      simp [h12, h16]
    · intro h12 h16 h32
      unfold AesGcm.decryptToken
      rw [hsplit]
      simp [h12, h16, h32]

/-- C5 witness: two-field and four-field envelopes are rejected for every
oracle, and a well-formed envelope with an empty ciphertext reaches the
decryption pipeline. -/
theorem C5_witness :
    AesGcm.decryptToken decOracle "a:b" key64 = none ∧
    AesGcm.decryptToken decOracle "a:b:c:d" key64 = none ∧
    AesGcm.decryptToken decOracle tokenEmptyCt key64 =
      decOracle (bufferFromHex key64.data)
        (bufferFromHex "000000000000000000000000".data) (bufferFromHex "".data)
        (bufferFromHex "00000000000000000000000000000000".data) := by
  refine ⟨(C5_envelope_decode decOracle key64 "a:b" [] [] []).1 (by decide),
    (C5_envelope_decode decOracle key64 "a:b:c:d" [] [] []).1 (by decide), ?_⟩
  exact ((C5_envelope_decode decOracle key64 tokenEmptyCt
      "000000000000000000000000".data "".data
      "00000000000000000000000000000000".data).2 (by decide)).2.2
    (by decide) (by decide) (by decide)

/-- C10: a provider key whose hex decoding is not exactly 32 bytes makes
decryptToken return none for every token and every decryption oracle, and the
handler then answers 403 with the generic invalid-token body for every
request that carries a non-empty token header, so a misconfigured key
surfaces as a client-caused 403, never as a 500 configuration error. -/
theorem C10_bad_key_is_client_403 (keyHex : String)
    (hk : (bufferFromHex keyHex.data).length ≠ 32) :
    (∀ (dec : AesGcm.DecOracle) (token : String),
      AesGcm.decryptToken dec token keyHex = none) ∧
    (∀ (dec : AesGcm.DecOracle) (now : Int) (req : Request) (tok : String),
      req.headers.lookup "x-auth-token" = some tok → tok.data.isEmpty = false →
      AesGcm.handler dec (Except.ok keyHex) now req =
        EdgeResult.response 403 "Forbidden" invalidTokenMsg) := by
  have hnone : ∀ (dec : AesGcm.DecOracle) (token : String),
      AesGcm.decryptToken dec token keyHex = none := by
    intro dec token
    unfold AesGcm.decryptToken
    split
    · simp [hk]
    · rfl
  refine ⟨hnone, ?_⟩
  intro dec now req tok hlook hne
  unfold AesGcm.handler
  rw [hlook]
  simp only [hne, Bool.false_eq_true, if_false, hnone dec tok]

theorem hmac_handler_cases (hmacHex : String → String → String) (k : String)
    (now : Int) (req : Request) :
    (∃ m, Hmac.handler hmacHex (Except.ok k) now req =
        EdgeResult.response 403 "Forbidden" m ∧
        (m = missingHeadersMsg ∨ m = staleMsg ∨ m = invalidSignatureMsg)) ∨
    Hmac.handler hmacHex (Except.ok k) now req = EdgeResult.allow req := by
  simp only [Hmac.handler]
  split
  · split
    · exact Or.inl ⟨missingHeadersMsg, rfl, Or.inl rfl⟩
    · split
      · exact Or.inl ⟨staleMsg, rfl, Or.inr (Or.inl rfl)⟩
      · split
        · exact Or.inl ⟨staleMsg, rfl, Or.inr (Or.inl rfl)⟩
        · split
          · exact Or.inl ⟨invalidSignatureMsg, rfl, Or.inr (Or.inr rfl)⟩
          · exact Or.inr rfl
  · exact Or.inl ⟨missingHeadersMsg, rfl, Or.inl rfl⟩

theorem validatePayload_fail_msgs (p : JSValue) (now : Int) (m : String)
    (h : AesGcm.validatePayload p now = AesGcm.ValidationResult.fail m) :
    m = invalidPayloadMsg ∨ m = staleMsg ∨ m = missingTsMsg := by
  unfold AesGcm.validatePayload at h
  split at h
  · injection h with h
    exact Or.inl h.symm
  · split at h
    · split at h
      · injection h with h
        exact Or.inr (Or.inl h.symm)
      · cases h
    · injection h with h
      exact Or.inr (Or.inr h.symm)

/-- Headers of a forwarded scheme-2 request: the two x-validated headers
assigned into the original header map. -/
def annotatedHeaders (hs : List (String × String)) (p : JSValue) :
    List (String × String) :=
  setHeader (setHeader hs "x-validated-device" (AesGcm.deviceHeaderValue p))
    "x-validated-timestamp" (AesGcm.tsHeaderValue p)

theorem aes_handler_cases (dec : AesGcm.DecOracle) (k : String) (now : Int)
    (req : Request) :
    (∃ m, AesGcm.handler dec (Except.ok k) now req =
        EdgeResult.response 403 "Forbidden" m ∧
        (m = missingHeaderMsgAes ∨ m = invalidTokenMsg ∨ m = invalidPayloadMsg ∨
         m = missingTsMsg ∨ m = staleMsg)) ∨
    (∃ tok p, req.headers.lookup "x-auth-token" = some tok ∧
      AesGcm.decryptToken dec tok k = some p ∧ p.truthy = true ∧
      AesGcm.validatePayload p now = AesGcm.ValidationResult.ok ∧
      AesGcm.handler dec (Except.ok k) now req =
        EdgeResult.allow ⟨annotatedHeaders req.headers p, req.rest⟩) := by
  simp only [AesGcm.handler]
  split
  · rename_i tok hlook
    split
    · exact Or.inl ⟨missingHeaderMsgAes, rfl, Or.inl rfl⟩
    · split
      · exact Or.inl ⟨invalidTokenMsg, rfl, Or.inr (Or.inl rfl)⟩
      · rename_i p hdec
        split
        · exact Or.inl ⟨invalidTokenMsg, rfl, Or.inr (Or.inl rfl)⟩
        · rename_i h2
          split
          · rename_i m hval
            rcases validatePayload_fail_msgs p now m hval with h | h | h
            · exact Or.inl ⟨m, rfl, Or.inr (Or.inr (Or.inl h))⟩
            · exact Or.inl ⟨m, rfl, Or.inr (Or.inr (Or.inr (Or.inr h)))⟩
            · exact Or.inl ⟨m, rfl, Or.inr (Or.inr (Or.inr (Or.inl h)))⟩
          · rename_i hval
            exact Or.inr ⟨tok, p, hlook, hdec, by simpa using h2, hval, rfl⟩
  · exact Or.inl ⟨missingHeaderMsgAes, rfl, Or.inl rfl⟩

/-- C10 witness: with a one-byte key the envelope a:b:c decrypts to null and
a request carrying it is denied 403 with the invalid-token body. -/
theorem C10_witness :
    AesGcm.decryptToken decOracle "a:b:c" "00" = none ∧
    AesGcm.handler decOracle (Except.ok "00") 0 ⟨[("x-auth-token", "a:b:c")], "r"⟩ =
      EdgeResult.response 403 "Forbidden" invalidTokenMsg :=
  ⟨(C10_bad_key_is_client_403 "00" (by decide)).1 decOracle "a:b:c",
   (C10_bad_key_is_client_403 "00" (by decide)).2 decOracle 0
     ⟨[("x-auth-token", "a:b:c")], "r"⟩ "a:b:c" (by decide) (by decide)⟩

/-- A scheme-1 request whose token does not parse as an integer. -/
def reqNaN : Request := ⟨[("x-bot-token", "abc"), ("x-bot-signature", "00")], "r"⟩

/-- A scheme-1 request with a fresh timestamp and a wrong signature. -/
def reqBadSig : Request := ⟨[("x-bot-token", "1000"), ("x-bot-signature", "00")], "r"⟩

/-- A scheme-1 request whose timestamp is stale AND whose signature is
wrong. -/
def reqStaleBadSig : Request :=
  ⟨[("x-bot-token", "100"), ("x-bot-signature", "zz")], "r"⟩

/-- C1 counterexample: two scheme-1 requests denied for different
client-caused reasons (unparsable token versus signature mismatch, both with
the secret available) receive responses with DIFFERENT bodies, so the deny
response does reveal which check rejected the request. -/
theorem C1_counterexample :
    Hmac.handler hmacConst (Except.ok "k") 1000 reqNaN =
      EdgeResult.response 403 "Forbidden" staleMsg ∧
    Hmac.handler hmacConst (Except.ok "k") 1000 reqBadSig =
      EdgeResult.response 403 "Forbidden" invalidSignatureMsg ∧
    staleMsg ≠ invalidSignatureMsg :=
  ⟨by decide, by decide, by decide⟩

/-- C1 amended: every client-caused denial (secret available) carries the
same status 403 Forbidden in both schemes, but the body is drawn from a
scheme-specific set of fixed messages that identifies the failing check
class: scheme 1 uses the missing-headers, timestamp and invalid-signature
messages, scheme 2 the missing-header, invalid-token and the three
payload-validation messages. -/
theorem C1_amended :
    (∀ (hmacHex : String → String → String) (k : String) (now : Int) (req : Request)
        (s : Nat) (d m : String),
      Hmac.handler hmacHex (Except.ok k) now req = EdgeResult.response s d m →
      s = 403 ∧ d = "Forbidden" ∧
        (m = missingHeadersMsg ∨ m = staleMsg ∨ m = invalidSignatureMsg)) ∧
    (∀ (dec : AesGcm.DecOracle) (k : String) (now : Int) (req : Request)
        (s : Nat) (d m : String),
      AesGcm.handler dec (Except.ok k) now req = EdgeResult.response s d m →
      s = 403 ∧ d = "Forbidden" ∧
        (m = missingHeaderMsgAes ∨ m = invalidTokenMsg ∨ m = invalidPayloadMsg ∨
         m = missingTsMsg ∨ m = staleMsg)) := by
  constructor
  · intro hmacHex k now req s d m h
    rcases hmac_handler_cases hmacHex k now req with ⟨m0, he, hm⟩ | he
    · rw [he] at h
      injection h with h1 h2 h3
      exact ⟨h1.symm, h2.symm, h3 ▸ hm⟩
    · rw [he] at h
      cases h
  · intro dec k now req s d m h
    rcases aes_handler_cases dec k now req with ⟨m0, he, hm⟩ | ⟨tok, p, -, -, -, -, he⟩
    · rw [he] at h
      injection h with h1 h2 h3
      exact ⟨h1.symm, h2.symm, h3 ▸ hm⟩
    · rw [he] at h
      cases h

/-- C1 amended witness: the denial of a request with an unparsable token is
403 Forbidden with one of the three scheme-1 messages. -/
theorem C1_amended_witness :
    403 = 403 ∧ "Forbidden" = "Forbidden" ∧
      (staleMsg = missingHeadersMsg ∨ staleMsg = staleMsg ∨
        staleMsg = invalidSignatureMsg) :=
  C1_amended.1 hmacConst "k" 1000 reqNaN 403 "Forbidden" staleMsg (by decide)

/-- C2 counterexample: a scheme-1 request whose signature is invalid AND
whose timestamp is outside the tolerance window is denied with the timestamp
message, not the signature message: the replay window is checked before HMAC
verification, contradicting the claimed verify-before-replay order. -/
theorem C2_counterexample :
    Hmac.handler hmacConst (Except.ok "k") 10000 reqStaleBadSig =
      EdgeResult.response 403 "Forbidden" staleMsg ∧
    constantTimeCompare "zz" (hmacConst "k" "100") = false ∧
    replayExpired 10000 100 = true ∧
    staleMsg ≠ invalidSignatureMsg :=
  ⟨by decide, by decide, by decide, by decide⟩

/-- C2 amended: for the signed-timestamp scheme the checks run in the order
secret fetch, header presence, timestamp parse plus replay window, HMAC
verification: a request with a present token whose timestamp is outside the
window is denied with the timestamp message regardless of its signature, and
the signature is verified (and its mismatch reported) only when the
timestamp already parsed and passed the window. -/
theorem C2_amended (hmacHex : String → String → String) (k : String) (now : Int)
    (req : Request) (tok sig : String) (t : Int)
    (htok : req.headers.lookup "x-bot-token" = some tok)
    (hsig : req.headers.lookup "x-bot-signature" = some sig)
    (htne : tok.data.isEmpty = false) (hsne : sig.data.isEmpty = false)
    (hparse : jsParseInt tok = some t) :
    (replayExpired now t = true →
      Hmac.handler hmacHex (Except.ok k) now req =
        EdgeResult.response 403 "Forbidden" staleMsg) ∧
    (replayExpired now t = false →
      constantTimeCompare sig (hmacHex k tok) = false →
      Hmac.handler hmacHex (Except.ok k) now req =
        EdgeResult.response 403 "Forbidden" invalidSignatureMsg) := by
  constructor
  · intro hexp
    simp [Hmac.handler, htok, hsig, htne, hsne, hparse, hexp]
  · intro hfresh hctc
    simp [Hmac.handler, htok, hsig, htne, hsne, hparse, hfresh, hctc]

/-- C2 amended witness: the stale-and-bad-signature request is denied for
the stale timestamp. -/
theorem C2_amended_witness :
    Hmac.handler hmacConst (Except.ok "k") 10000 reqStaleBadSig =
      EdgeResult.response 403 "Forbidden" staleMsg :=
  (C2_amended hmacConst "k" 10000 reqStaleBadSig "100" "zz" 100 (by decide)
    (by decide) (by decide) (by decide) (by decide)).1 (by decide)

/-- C7: both handler embeddings are total functions whose result is always
either a forwarded request or a complete deny response with status 403
Forbidden or the 500 configuration error (the scheme-1 handler forwards
exactly the original request); a scheme-1 request whose token or signature
header is missing or empty is denied 403 with the missing-headers body when
the secret is available; and decryptToken yields a payload or null on every
input, never an exception. -/
theorem C7_total_no_throw :
    (∀ (hmacHex : String → String → String) (sec : Except String String)
        (now : Int) (req : Request),
      Hmac.handler hmacHex sec now req = EdgeResult.allow req ∨
      (∃ m, Hmac.handler hmacHex sec now req = EdgeResult.response 403 "Forbidden" m) ∨
      Hmac.handler hmacHex sec now req =
        EdgeResult.response 500 "Internal Server Error" configErrorMsg) ∧
    (∀ (dec : AesGcm.DecOracle) (sec : Except String String) (now : Int)
        (req : Request),
      (∃ req2, AesGcm.handler dec sec now req = EdgeResult.allow req2) ∨
      (∃ m, AesGcm.handler dec sec now req = EdgeResult.response 403 "Forbidden" m) ∨
      AesGcm.handler dec sec now req =
        EdgeResult.response 500 "Internal Server Error" configErrorMsg) ∧
    (∀ (hmacHex : String → String → String) (k : String) (now : Int) (req : Request),
      (headerFalsy (req.headers.lookup "x-bot-token") ||
        headerFalsy (req.headers.lookup "x-bot-signature")) = true →
      Hmac.handler hmacHex (Except.ok k) now req =
        EdgeResult.response 403 "Forbidden" missingHeadersMsg) ∧
    (∀ (dec : AesGcm.DecOracle) (tok k : String),
      AesGcm.decryptToken dec tok k = none ∨
      ∃ p, AesGcm.decryptToken dec tok k = some p) := by
  refine ⟨?_, ?_, ?_, ?_⟩
  · intro hmacHex sec now req
    cases sec with
    | error e => exact Or.inr (Or.inr rfl)
    | ok k =>
      rcases hmac_handler_cases hmacHex k now req with ⟨m, he, -⟩ | he
      · exact Or.inr (Or.inl ⟨m, he⟩)
      · exact Or.inl he
  · intro dec sec now req
    cases sec with
    | error e => exact Or.inr (Or.inr rfl)
    | ok k =>
      rcases aes_handler_cases dec k now req with ⟨m, he, -⟩ | ⟨tok, p, -, -, -, -, he⟩
      · exact Or.inr (Or.inl ⟨m, he⟩)
      · exact Or.inl ⟨_, he⟩
  · intro hmacHex k now req hfal
    rcases h1 : req.headers.lookup "x-bot-token" with _ | tok
    · simp [Hmac.handler, h1]
    · rcases h2 : req.headers.lookup "x-bot-signature" with _ | sig
      · simp [Hmac.handler, h1, h2]
      · rw [h1, h2] at hfal
        simp only [headerFalsy] at hfal
        simp [Hmac.handler, h1, h2, hfal]
  · intro dec tok k
    cases h : AesGcm.decryptToken dec tok k with
    | none => exact Or.inl rfl
    | some p => exact Or.inr ⟨p, rfl⟩

/-- C7 witness: a request with an empty token header and no signature header
is denied 403 with the missing-headers body. -/
theorem C7_witness :
    Hmac.handler hmacConst (Except.ok "k") 0 ⟨[("x-bot-token", "")], "r"⟩ =
      EdgeResult.response 403 "Forbidden" missingHeadersMsg :=
  C7_total_no_throw.2.2.1 hmacConst "k" 0 ⟨[("x-bot-token", "")], "r"⟩ (by decide)

/-- A valid scheme-2 request that also carries a caller-supplied
x-validated-device header. -/
def reqSpoof : Request :=
  ⟨[("x-auth-token", tokenEmptyCt), ("x-validated-device", "spoof")], "r"⟩

/-- The request the handler forwards for reqSpoof: the caller-supplied
x-validated-device entry has been overwritten in place. -/
def reqSpoofFwd : Request :=
  ⟨[("x-auth-token", tokenEmptyCt), ("x-validated-device", "d1"),
    ("x-validated-timestamp", "100")], "r"⟩

/-- C8 counterexample: on an allowed scheme-2 request that already carries an
x-validated-device header, the forwarded request is NOT the original plus two
added headers: the caller-supplied entry is overwritten in place, so the
original header value spoof is gone from the forwarded request. -/
theorem C8_counterexample :
    AesGcm.handler decOracle (Except.ok key64) 100 reqSpoof =
      EdgeResult.allow reqSpoofFwd ∧
    reqSpoofFwd.headers ≠
      reqSpoof.headers ++
        [("x-validated-device", "d1"), ("x-validated-timestamp", "100")] :=
  ⟨by decide, by decide⟩

theorem lookup_append_of_none {β : Type} (hs l : List (String × β)) (n : String)
    (h : hs.lookup n = none) : (hs ++ l).lookup n = l.lookup n := by
  induction hs with
  | nil => rfl
  | cons q hs ih =>
    obtain ⟨k, w⟩ := q
    rw [List.cons_append]
    simp only [List.lookup] at h ⊢
    cases hnk : (n == k) with
    | true =>
      rw [hnk] at h
      exact Option.noConfusion h
    | false =>
      rw [hnk] at h
      exact ih h

theorem setHeader_append (hs : List (String × String)) (n v : String)
    (h : hs.lookup n = none) : setHeader hs n v = hs ++ [(n, v)] := by
  induction hs with
  | nil => rfl
  | cons q hs ih =>
    obtain ⟨k, w⟩ := q
    simp only [List.lookup] at h
    cases hnk : (n == k) with
    | true =>
      rw [hnk] at h
      exact Option.noConfusion h
    | false =>
      rw [hnk] at h
      have hk : ¬ k = n := by
        intro he
        subst he
        simp at hnk
      simp only [setHeader, hk, if_false, List.cons_append]
      rw [ih h]

/-- C8 amended: on every allowed scheme-2 request, the forwarded request
keeps every non-validated field and header of the original and SETS the two
headers x-validated-device (payload device when truthy, otherwise unknown)
and x-validated-timestamp (decimal string of the accepted ts), overwriting
same-named caller-supplied headers in place; when the original carries
neither name, this is exactly the two headers appended. Scheme-1 allowed
requests are forwarded completely unchanged. -/
theorem C8_amended :
    (∀ (dec : AesGcm.DecOracle) (k : String) (now : Int) (req req2 : Request),
      AesGcm.handler dec (Except.ok k) now req = EdgeResult.allow req2 →
      req2.rest = req.rest ∧
      ∃ tok p, req.headers.lookup "x-auth-token" = some tok ∧
        AesGcm.decryptToken dec tok k = some p ∧
        req2.headers = annotatedHeaders req.headers p) ∧
    (∀ (hs : List (String × String)) (p : JSValue),
      hs.lookup "x-validated-device" = none →
      hs.lookup "x-validated-timestamp" = none →
      annotatedHeaders hs p =
        hs ++ [("x-validated-device", AesGcm.deviceHeaderValue p),
               ("x-validated-timestamp", AesGcm.tsHeaderValue p)]) ∧
    (∀ (hmacHex : String → String → String) (sec : Except String String)
        (now : Int) (req req2 : Request),
      Hmac.handler hmacHex sec now req = EdgeResult.allow req2 → req2 = req) := by
  refine ⟨?_, ?_, ?_⟩
  · intro dec k now req req2 h
    rcases aes_handler_cases dec k now req with ⟨m, he, -⟩ | ⟨tok, p, hlook, hdec, -, -, he⟩
    · rw [he] at h
      cases h
    · rw [he] at h
      injection h with h
      subst h
      exact ⟨rfl, tok, p, hlook, hdec, rfl⟩
  · intro hs p hd ht
    unfold annotatedHeaders
    rw [setHeader_append hs _ _ hd]
    rw [setHeader_append _ _ _ (by
      rw [lookup_append_of_none hs _ _ ht]
      rfl)]
    rw [List.append_assoc]
    rfl
  · intro hmacHex sec now req req2 h
    cases sec with
    | error e =>
      rw [show Hmac.handler hmacHex (Except.error e) now req =
        EdgeResult.response 500 "Internal Server Error" configErrorMsg from rfl] at h
      cases h
    | ok k =>
      rcases hmac_handler_cases hmacHex k now req with ⟨m, he, -⟩ | he
      · rw [he] at h
        cases h
      · rw [he] at h
        injection h with h
        exact h.symm

/-- C8 amended witness: the concrete allowed run forwards the original rest
component and sets the two validated headers computed from the decrypted
payload. -/
theorem C8_amended_witness :
    reqSpoofFwd.rest = reqSpoof.rest ∧
    ∃ tok p, reqSpoof.headers.lookup "x-auth-token" = some tok ∧
      AesGcm.decryptToken decOracle tok key64 = some p ∧
      reqSpoofFwd.headers = annotatedHeaders reqSpoof.headers p :=
  C8_amended.1 decOracle key64 100 reqSpoof reqSpoofFwd (by decide)

end EdgeLab
